import Mathlib

/-!
# dfumac: the HPM command client, unlock handshake, VDM exchange and port loop

A shallow embedding of `src/main.cpp`.

* The vendor transport `AppleHPMLib` (the three entry points `Read`, `Write`,
  `Command` of the device interface) is an arbitrary deterministic machine
  over a state type `σ`; every theorem quantifies over all such machines.
* An `HPMPluginInstance` carries the two pointers of the C++ struct as
  booleans (null / non-null), the transport state, and a ghost log `calls`
  of every transport entry point invoked through it, in order.
* C++ exceptions are results of type `Except Exn _`; `Exn.failure` is the
  program's own `struct failure`, `Exn.out_of_range` is `std::out_of_range`.
* Bytes are naturals below 256, `uint32_t` values are naturals below `2^32`.
* Console output (`printf`) is not modelled. Device discovery (`FindDevices`)
  and the key lookup (`GetUnlockKey`) talk to the operating system only: the
  list of device handles and the key are parameters here.
-/

namespace Dfumac

/-! ## Data model -/

/-- Exceptions that can travel through the program. -/
inductive Exn where
  /-- The program's `struct failure : std::runtime_error`, with its `what()`. -/
  | failure (what : String)
  /-- The `std::out_of_range` thrown by `std::string::erase` when `pos > size()`. -/
  | out_of_range
  /-- Undefined behaviour: `vdm[0]` on an empty vector. -/
  | undefined
  deriving DecidableEq, Repr

/-- One invocation of a transport entry point, with the arguments passed. -/
inductive Call where
  | Read (chipAddr dataAddr flags : Nat)
  | Write (chipAddr dataAddr : Nat) (data : List Nat) (flags : Nat)
  | Command (chipAddr cmd flags : Nat)
  deriving DecidableEq, Repr

/-- The device interface `AppleHPMLib` (declared in `AppleHPMLib.h`, which is
not among the sources): each entry point returns an `IOReturn` (0 is success)
and moves the transport to a new state. `Read` additionally yields the bytes
it stored in the caller's buffer. -/
structure AppleHPMLib (σ : Type) where
  Read : σ → (chipAddr dataAddr len flags : Nat) → (Nat × List Nat) × σ
  Write : σ → (chipAddr dataAddr : Nat) → (data : List Nat) → (flags : Nat) → Nat × σ
  Command : σ → (chipAddr cmd flags : Nat) → Nat × σ

/-- The two stream helpers of `ssops.h` (not among the sources) for 32-bit
values: `put32` is the 4-byte encoding appended by `put(args, uint32_t)`,
`get32` decodes the 4 bytes consumed by `get(reply, uint32_t&)`. For a
`uint8_t` both move exactly one byte. -/
structure SsOps where
  put32 : Nat → List Nat
  get32 : List Nat → Nat

/-- The C++ `struct HPMPluginInstance`: `plugin` and `device` record whether
the pointer of that name is non-null; `st` is the state of the transport
behind `device`; `calls` logs the transport calls made so far. -/
structure HPMPluginInstance (σ : Type) where
  plugin : Bool
  device : Bool
  st : σ
  calls : List Call

/-- A four-character constant such as `'DBMa'`. -/
def fourcc (a b c d : Char) : Nat :=
  a.toNat * 2 ^ 24 + b.toNat * 2 ^ 16 + c.toNat * 2 ^ 8 + d.toNat

def LOCK : Nat := fourcc 'L' 'O' 'C' 'K'
def Gaid : Nat := fourcc 'G' 'a' 'i' 'd'
def DBMa : Nat := fourcc 'D' 'B' 'M' 'a'
def VDMs : Nat := fourcc 'V' 'D' 'M' 's'

/-- The `std::string` built from a C string literal whose characters are
`lit`: construction from `const char *` stops at the first NUL. -/
def stringOfLiteral (lit : List Nat) : List Nat :=
  lit.takeWhile (fun b => b != 0)

/-- The contents of the 64-byte buffer of `readRegister` after `Read` stored
`data` in it: `ret.resize(64)` zero-fills, the length never changes. -/
def buffer64 (data : List Nat) : List Nat :=
  (List.range 64).map (fun i => data.getD i 0 % 256)

/-- Integer promotion of a `char` holding byte `b` (plain `char` is signed on
the target platform). -/
def charToInt (b : Nat) : Int :=
  if b < 128 then (b : Int) else (b : Int) - 256

/-- Conversion of an `int` to `unsigned int`. -/
def toUInt32 (x : Int) : Nat :=
  (x % 2 ^ 32).toNat

/-- The expression `res[0] & 0xfu` of `command`, converted to the `int`
return type. -/
def lowNibble (res : List Nat) : Int :=
  Int.ofNat (toUInt32 (charToInt (res.getD 0 0)) &&& 0xf)

/-! ## `HPMPluginInstance` members -/

/-- `HPMPluginInstance::readRegister` (lines 69-81). -/
def HPMPluginInstance.readRegister {σ : Type} (lib : AppleHPMLib σ) (inst : HPMPluginInstance σ)
    (chipAddr dataAddr flags : Nat) : Except Exn (List Nat) × HPMPluginInstance σ :=
  if !inst.device then
    (.error (.failure "readRegister failed: device not initialized"), inst)
  else
    let x := lib.Read inst.st chipAddr dataAddr 64 flags
    let inst1 : HPMPluginInstance σ :=
      { inst with st := x.2, calls := inst.calls ++ [Call.Read chipAddr dataAddr flags] }
    if x.1.1 ≠ 0 then
      (.error (.failure "readRegister failed"), inst1)
    else
      (.ok (buffer64 x.1.2), inst1)

/-- `HPMPluginInstance::writeRegister` (lines 83-91). -/
def HPMPluginInstance.writeRegister {σ : Type} (lib : AppleHPMLib σ) (inst : HPMPluginInstance σ)
    (chipAddr dataAddr : Nat) (value : List Nat) : Except Exn Unit × HPMPluginInstance σ :=
  if !inst.device then
    (.error (.failure "writeRegister failed: device not initialized"), inst)
  else
    let x := lib.Write inst.st chipAddr dataAddr value 0
    let inst1 : HPMPluginInstance σ :=
      { inst with st := x.2, calls := inst.calls ++ [Call.Write chipAddr dataAddr value 0] }
    if x.1 ≠ 0 then
      (.error (.failure "writeRegister failed"), inst1)
    else
      (.ok (), inst1)

/-- Lines 98-99 of `command`: the argument bytes, when there are any, are
handed to `Write` on register 9 and the `IOReturn` is dropped. -/
def HPMPluginInstance.writeArgs {σ : Type} (lib : AppleHPMLib σ) (inst : HPMPluginInstance σ)
    (chipAddr : Nat) (args : List Nat) : HPMPluginInstance σ :=
  if args.length ≠ 0 then
    { inst with
      st := (lib.Write inst.st chipAddr 9 args 0).2,
      calls := inst.calls ++ [Call.Write chipAddr 9 args 0] }
  else inst

/-- `HPMPluginInstance::command` (lines 93-105). -/
def HPMPluginInstance.command {σ : Type} (lib : AppleHPMLib σ) (inst : HPMPluginInstance σ)
    (chipAddr cmd : Nat) (args : List Nat) : Except Exn Int × HPMPluginInstance σ :=
  if !inst.device then
    (.error (.failure "command failed: device not initialized"), inst)
  else
    let inst1 := inst.writeArgs lib chipAddr args
    let ret := lib.Command inst1.st chipAddr cmd 0
    let inst2 : HPMPluginInstance σ :=
      { inst1 with st := ret.2, calls := inst1.calls ++ [Call.Command chipAddr cmd 0] }
    if ret.1 ≠ 0 then
      (.ok (-1), inst2)
    else
      match inst2.readRegister lib chipAddr 9 0 with
      | (.error e, inst3) => (.error e, inst3)
      | (.ok res, inst3) => (.ok (lowNibble res), inst3)

/-- The destructor `~HPMPluginInstance` (lines 53-67). The literal passed
as argument is `"\x00"`. An exception leaving `command` here escapes a
destructor; it is reported as the `error` result. -/
def HPMPluginInstance.destroy {σ : Type} (lib : AppleHPMLib σ) (inst : HPMPluginInstance σ) :
    Except Exn Unit × HPMPluginInstance σ :=
  if inst.plugin then
    if inst.device then
      match inst.command lib 0 DBMa (stringOfLiteral [0x00]) with
      | (.error e, inst1) => (.error e, inst1)
      | (.ok _, inst1) => (.ok (), { inst1 with plugin := false, device := false })
    else
      (.ok (), { inst with plugin := false, device := false })
  else
    (.ok (), inst)

/-! ## Unlock handshake -/

/-- `UnlockAce` (lines 195-215). -/
def UnlockAce {σ : Type} (ops : SsOps) (lib : AppleHPMLib σ) (inst : HPMPluginInstance σ)
    (no key : Nat) : Except Exn Unit × HPMPluginInstance σ :=
  let args := ops.put32 key
  match inst.command lib no LOCK args with
  | (.error e, inst1) => (.error e, inst1)
  | (.ok r1, inst1) =>
    if r1 ≠ 0 then
      match inst1.command lib no Gaid [] with
      | (.error e, inst2) => (.error e, inst2)
      | (.ok r2, inst2) =>
        if r2 ≠ 0 then
          (.error (.failure "Failed to unlock device"), inst2)
        else
          match inst2.command lib no LOCK args with
          | (.error e, inst3) => (.error e, inst3)
          | (.ok r3, inst3) =>
            if r3 ≠ 0 then
              (.error (.failure "Failed to unlock device"), inst3)
            else
              (.ok (), inst3)
    else
      (.ok (), inst1)

/-! ## VDM exchange -/

/-- The control byte `(uint8_t)(((3 << 4) | vdm.size()))` (line 224). -/
def controlByte (size : Nat) : Nat :=
  ((3 <<< 4) ||| size) % 256

/-- The bytes collected in `args` by lines 223-226 of `DoVDM`. -/
def vdmFrame (ops : SsOps) (vdm : List Nat) : List Nat :=
  controlByte vdm.length :: (vdm.map ops.put32).flatten

/-- The polling loop `for (i = 0; i < 16; i++)` of `DoVDM` (lines 231-236),
with `n` the number of iterations left (`16 - i`); it yields the final `i`
and the final contents of `rs`. -/
def pollLoop {σ : Type} (lib : AppleHPMLib σ) (no rxst : Nat) :
    Nat → Nat → List Nat → HPMPluginInstance σ →
      Except Exn (Nat × List Nat) × HPMPluginInstance σ
  | 0, i, rs, inst => (.ok (i, rs), inst)
  | n + 1, i, _, inst =>
    match inst.readRegister lib no 0x4d 0 with
    | (.error e, inst1) => (.error e, inst1)
    | (.ok rs1, inst1) =>
      if rs1.getD 0 0 ≠ rxst then
        (.ok (i, rs1), inst1)
      else
        pollLoop lib no rxst n (i + 1) rs1 inst1

/-- The reply header `vdmhdr` of lines 240-244: `get(reply, rxst)` takes the
first byte of the buffer, `get(reply, vdmhdr)` the four bytes after it. -/
def replyHeader (ops : SsOps) (rs : List Nat) : Nat :=
  ops.get32 ((rs.drop 1).take 4)

/-- `DoVDM` (lines 217-250). -/
def DoVDM {σ : Type} (ops : SsOps) (lib : AppleHPMLib σ) (inst : HPMPluginInstance σ)
    (no : Nat) (vdm : List Nat) : Except Exn Unit × HPMPluginInstance σ :=
  match inst.readRegister lib no 0x4d 0 with
  | (.error e, inst1) => (.error e, inst1)
  | (.ok rs, inst1) =>
    let rxst := rs.getD 0 0
    match inst1.command lib no VDMs (vdmFrame ops vdm) with
    | (.error e, inst2) => (.error e, inst2)
    | (.ok r, inst2) =>
      if r ≠ 0 then
        (.error (.failure "Failed to send VDM\n"), inst2)
      else
        match pollLoop lib no rxst 16 0 rs inst2 with
        | (.error e, inst3) => (.error e, inst3)
        | (.ok (i, rs1), inst3) =>
          if i ≥ 16 then
            (.error (.failure "Did not get a reply to VDM\n"), inst3)
          else
            match vdm.head? with
            | none => (.error .undefined, inst3)
            | some v0 =>
              if replyHeader ops rs1 ≠ (v0 ||| 0x40) then
                (.error (.failure "VDM failed"), inst3)
              else
                (.ok (), inst3)

/-- The vector `dfu` of `DoDFU` (line 256): the update request. -/
def dfuRequest : List Nat := [0x5ac8012, 0x106, 0x80010000]

/-- `DoDFU` (lines 252-261). -/
def DoDFU {σ : Type} (ops : SsOps) (lib : AppleHPMLib σ) (inst : HPMPluginInstance σ)
    (no : Nat) : Except Exn Int × HPMPluginInstance σ :=
  match DoVDM ops lib inst no dfuRequest with
  | (.error e, inst1) => (.error e, inst1)
  | (.ok _, inst1) => (.ok 0, inst1)

/-! ## The port loop of `main2` -/

/-- `std::string::npos`. -/
def npos : Nat := 2 ^ 64 - 1

/-- `std::string::find(char)`: index of the first occurrence, or `npos`. -/
def find (s : List Nat) (ch : Nat) : Nat :=
  if ch ∈ s then s.indexOf ch else npos

/-- `std::string::erase(pos)`: drops everything from `pos` on; throws
`std::out_of_range` when `pos > size()`. -/
def erase (s : List Nat) (pos : Nat) : Except Exn (List Nat) :=
  if pos > s.length then .error .out_of_range else .ok (s.take pos)

/-- The string literal `"DBMa"` as bytes. -/
def strDBMa : List Nat := ['D'.toNat, 'B'.toNat, 'M'.toNat, 'a'.toNat]

/-- The status check made on a buffer read from register `0x03`:
`res.erase(res.find('\0'))` followed by the test `res != "DBMa"`
(lines 285-288 and 296-298). The result is the value of that test: `false`
means the port counts as being in DBMa mode. -/
def statusDiffers (res : List Nat) : Except Exn Bool :=
  match erase res (find res 0) with
  | .error e => .error e
  | .ok res1 => .ok (res1 != stringOfLiteral strDBMa)

/-- The body of `if (res != "DBMa")` (lines 289-299). -/
def enterDBMa {σ : Type} (ops : SsOps) (lib : AppleHPMLib σ) (key : Nat)
    (inst : HPMPluginInstance σ) (no : Nat) : Except Exn Unit × HPMPluginInstance σ :=
  match UnlockAce ops lib inst no key with
  | (.error e, inst1) => (.error e, inst1)
  | (.ok _, inst1) =>
    match inst1.command lib no DBMa (stringOfLiteral [0x01]) with
    | (.error e, inst2) => (.error e, inst2)
    | (.ok r, inst2) =>
      if r ≠ 0 then
        (.error (.failure "Failed to enter DBMa mode"), inst2)
      else
        match inst2.readRegister lib no 0x03 0 with
        | (.error e, inst3) => (.error e, inst3)
        | (.ok res, inst3) =>
          match statusDiffers res with
          | .error e => (.error e, inst3)
          | .ok differs =>
            if differs then
              (.error (.failure "Failed to enter DBMa mode"), inst3)
            else
              (.ok (), inst3)

/-- The body of the loop over ports (lines 276-303) for port `no`. -/
def portBody {σ : Type} (ops : SsOps) (lib : AppleHPMLib σ) (key : Nat)
    (inst : HPMPluginInstance σ) (no : Nat) : Except Exn Unit × HPMPluginInstance σ :=
  match inst.readRegister lib no 0x3f 0 with
  | (.error e, inst1) => (.error e, inst1)
  | (.ok _, inst1) =>
    match inst1.readRegister lib no 0x03 0 with
    | (.error e, inst2) => (.error e, inst2)
    | (.ok res, inst2) =>
      match statusDiffers res with
      | .error e => (.error e, inst2)
      | .ok differs =>
        if differs then
          match enterDBMa ops lib key inst2 no with
          | (.error e, inst3) => (.error e, inst3)
          | (.ok _, inst3) =>
            match DoDFU ops lib inst3 no with
            | (.error e, inst4) => (.error e, inst4)
            | (.ok _, inst4) => (.ok (), inst4)
        else
          match DoDFU ops lib inst2 no with
          | (.error e, inst4) => (.error e, inst4)
          | (.ok _, inst4) => (.ok (), inst4)

/-- The loop `for (int no = 0; no < 5; ++no)` (line 275) from port `no` on,
with `n` iterations left; the program runs `portLoop ops lib key 5 0`. -/
def portLoop {σ : Type} (ops : SsOps) (lib : AppleHPMLib σ) (key : Nat) :
    Nat → Nat → HPMPluginInstance σ → Except Exn Unit × HPMPluginInstance σ
  | 0, _, inst => (.ok (), inst)
  | n + 1, no, inst =>
    match portBody ops lib key inst no with
    | (.error e, inst1) => (.error e, inst1)
    | (.ok _, inst1) => portLoop ops lib key n (no + 1) inst1

/-- One iteration of `for (auto& inst : devices)` (lines 273-309): the port
loop inside `try`, with `catch (const failure& e)` around the whole loop.
Any other exception passes through. -/
def processDevice {σ : Type} (ops : SsOps) (lib : AppleHPMLib σ) (key : Nat)
    (inst : HPMPluginInstance σ) : Except Exn Unit × HPMPluginInstance σ :=
  match portLoop ops lib key 5 0 inst with
  | (.error (.failure _), inst1) => (.ok (), inst1)
  | (.error e, inst1) => (.error e, inst1)
  | (.ok _, inst1) => (.ok (), inst1)

/-- The loop `for (auto& inst : devices)` of `main2` (lines 273-309) over
the device handles returned by `FindDevices`. -/
def deviceLoop {σ : Type} (ops : SsOps) (lib : AppleHPMLib σ) (key : Nat) :
    List (HPMPluginInstance σ) → Except Exn Unit × List (HPMPluginInstance σ)
  | [] => (.ok (), [])
  | inst :: rest =>
    match processDevice ops lib key inst with
    | (.error e, inst1) => (.error e, inst1 :: rest)
    | (.ok _, inst1) =>
      let r := deviceLoop ops lib key rest
      (r.1, inst1 :: r.2)

/-! ## Observations on the call log -/

/-- The `(chipAddr, cmd)` pairs of the `Command` calls in a log, in order. -/
def commandsOf : List Call → List (Nat × Nat)
  | [] => []
  | Call.Command chipAddr cmd _ :: rest => (chipAddr, cmd) :: commandsOf rest
  | _ :: rest => commandsOf rest

/-- The number of `Read` calls in a log. -/
def readCount : List Call → Nat
  | [] => 0
  | Call.Read _ _ _ :: rest => readCount rest + 1
  | _ :: rest => readCount rest

/-- The instance after `j` consecutive `readRegister` calls on one register,
whatever they return. -/
def afterReads {σ : Type} (lib : AppleHPMLib σ) (chipAddr dataAddr : Nat) :
    Nat → HPMPluginInstance σ → HPMPluginInstance σ
  | 0, inst => inst
  | j + 1, inst => afterReads lib chipAddr dataAddr j (inst.readRegister lib chipAddr dataAddr 0).2

/-- The outcome of the `j`-th (counting from 1) of a run of consecutive
reads of the VDM status register `0x4d` of port `no`, started at `inst`. -/
def pollRead {σ : Type} (lib : AppleHPMLib σ) (no : Nat) (inst : HPMPluginInstance σ)
    (j : Nat) : Except Exn (List Nat) :=
  ((afterReads lib no 0x4d (j - 1) inst).readRegister lib no 0x4d 0).1

/-! ## Sample transports used to exercise the theorems -/

/-- A transport on which every `Read` fails. -/
def deadLib : AppleHPMLib Unit where
  Read := fun s _ _ _ _ => ((1, []), s)
  Write := fun s _ _ _ _ => (0, s)
  Command := fun s _ _ _ => (0, s)

/-- A transport on which every `Write` fails, every `Command` succeeds and
every register reads all zeros. -/
def noWriteLib : AppleHPMLib Unit where
  Read := fun s _ _ _ _ => ((0, []), s)
  Write := fun s _ _ _ _ => (1, s)
  Command := fun s _ _ _ => (0, s)

/-- A transport on which `Command` fails and everything else succeeds. -/
def noCommandLib : AppleHPMLib Unit where
  Read := fun s _ _ _ _ => ((0, []), s)
  Write := fun s _ _ _ _ => (0, s)
  Command := fun s _ _ _ => (1, s)

/-- A transport that remembers the last command issued: register 9 reads
result 1 after `LOCK` and 0 after anything else, so unlocking is refused while
the reset command is accepted. -/
def lockedLib : AppleHPMLib Nat where
  Read := fun s _ dataAddr _ _ =>
    if dataAddr = 9 then ((0, [if s = LOCK then 1 else 0]), s) else ((0, []), s)
  Write := fun s _ _ _ _ => (0, s)
  Command := fun _ _ cmd _ => (0, cmd)

/-- A transport whose state counts the `Read` calls on register `0x4d`:
that register shows sequence byte 0 on its first `k` reads and afterwards
sequence byte 1 followed by `reply`. Register `0x03` reads `"DBMa"`, every
other register reads zeros; `Write` and `Command` succeed. -/
def replyLib (k : Nat) (reply : List Nat) : AppleHPMLib Nat where
  Read := fun s _ dataAddr _ _ =>
    if dataAddr = 0x4d then
      (if s < k then ((0, [0]), s + 1) else ((0, 1 :: reply), s + 1))
    else if dataAddr = 0x03 then ((0, [0x44, 0x42, 0x4d, 0x61]), s)
    else ((0, []), s)
  Write := fun s _ _ _ _ => (0, s)
  Command := fun s _ _ _ => (0, s)

/-- A transport on which every call succeeds and every register reads zeros. -/
def quietLib : AppleHPMLib Unit where
  Read := fun s _ _ _ _ => ((0, []), s)
  Write := fun s _ _ _ _ => (0, s)
  Command := fun s _ _ _ => (0, s)

/-- Big-endian stream helpers, as one possible `ssops.h`. -/
def bigEndian : SsOps where
  put32 := fun w => [w / 2 ^ 24 % 256, w / 2 ^ 16 % 256, w / 2 ^ 8 % 256, w % 256]
  get32 := fun bs =>
    bs.getD 0 0 * 2 ^ 24 + bs.getD 1 0 * 2 ^ 16 + bs.getD 2 0 * 2 ^ 8 + bs.getD 3 0

/-- A status buffer reading `"DBMaX"` followed by zeros. -/
def paddedStatus : List Nat := buffer64 (strDBMa ++ ['X'.toNat])

/-- A status buffer reading `"DBMa"` followed by 60 spaces: no null byte. -/
def unterminatedStatus : List Nat := strDBMa ++ List.replicate 60 ' '.toNat

/-- A freshly bound device handle over transport state `s`. -/
def fresh {σ : Type} (s : σ) : HPMPluginInstance σ :=
  { plugin := true, device := true, st := s, calls := [] }

end Dfumac

namespace Dfumac

/-! ## Bytes and nibbles -/

theorem buffer64_length (data : List Nat) : (buffer64 data).length = 64 := by
  simp [buffer64]

theorem buffer64_getD_zero (data : List Nat) :
    (buffer64 data).getD 0 0 = data.getD 0 0 % 256 := by
  simp [buffer64, List.range_succ_eq_map]

theorem buffer64_first_lt (data : List Nat) : (buffer64 data).getD 0 0 < 256 := by
  rw [buffer64_getD_zero]
  exact Nat.mod_lt _ (by decide)

theorem toUInt32_charToInt_mod (b : Nat) :
    toUInt32 (charToInt b) % 16 = b % 16 := by
  unfold toUInt32 charToInt
  split <;> omega

theorem lowNibble_eq (res : List Nat) :
    lowNibble res = ((res.getD 0 0 &&& 0xf : Nat) : Int) := by
  unfold lowNibble
  have h1 : ∀ x : Nat, x &&& 0xf = x % 16 := fun x => Nat.and_pow_two_sub_one_eq_mod x 4
  rw [h1, h1, toUInt32_charToInt_mod]
  rfl

theorem lowNibble_range (res : List Nat) : 0 ≤ lowNibble res ∧ lowNibble res ≤ 15 := by
  unfold lowNibble
  have h1 : ∀ x : Nat, x &&& 0xf = x % 16 := fun x => Nat.and_pow_two_sub_one_eq_mod x 4
  rw [h1]
  constructor
  · exact Int.ofNat_nonneg _
  · have : toUInt32 (charToInt (res.getD 0 0)) % 16 < 16 := Nat.mod_lt _ (by decide)
    show ((toUInt32 (charToInt (res.getD 0 0)) % 16 : Nat) : Int) ≤ 15
    omega

/-! ## The call log -/

theorem commandsOf_append (l1 l2 : List Call) :
    commandsOf (l1 ++ l2) = commandsOf l1 ++ commandsOf l2 := by
  induction l1 with
  | nil => rfl
  | cons c cs ih => cases c <;> simp [commandsOf, ih]

theorem readCount_append (l1 l2 : List Call) :
    readCount (l1 ++ l2) = readCount l1 + readCount l2 := by
  induction l1 with
  | nil => simp [readCount]
  | cons c cs ih =>
    cases c <;> simp [readCount, ih]
    omega

/-! ## The command client -/

section Command

variable {σ : Type} (lib : AppleHPMLib σ) (inst : HPMPluginInstance σ)

theorem readRegister_unbound (chipAddr dataAddr flags : Nat) (h : inst.device = false) :
    inst.readRegister lib chipAddr dataAddr flags =
      (.error (.failure "readRegister failed: device not initialized"), inst) := by
  simp [HPMPluginInstance.readRegister, h]

theorem readRegister_device (chipAddr dataAddr flags : Nat) :
    (inst.readRegister lib chipAddr dataAddr flags).2.device = inst.device := by
  unfold HPMPluginInstance.readRegister
  split
  · rfl
  · dsimp only
    split <;> rfl

theorem readRegister_calls (chipAddr dataAddr flags : Nat) (h : inst.device = true) :
    (inst.readRegister lib chipAddr dataAddr flags).2.calls =
      inst.calls ++ [Call.Read chipAddr dataAddr flags] := by
  unfold HPMPluginInstance.readRegister
  simp only [h, Bool.not_true, Bool.false_eq_true, if_false]
  split <;> rfl

theorem readRegister_ok_device (chipAddr dataAddr flags : Nat) (res : List Nat)
    (inst1 : HPMPluginInstance σ)
    (h : inst.readRegister lib chipAddr dataAddr flags = (.ok res, inst1)) :
    inst.device = true := by
  cases hd : inst.device
  · rw [readRegister_unbound lib inst _ _ _ hd] at h
    simp at h
  · rfl

theorem readRegister_ok_length (chipAddr dataAddr flags : Nat) (res : List Nat)
    (inst1 : HPMPluginInstance σ)
    (h : inst.readRegister lib chipAddr dataAddr flags = (.ok res, inst1)) :
    res.length = 64 := by
  unfold HPMPluginInstance.readRegister at h
  split at h
  · simp at h
  · dsimp only at h
    split at h
    · simp at h
    · simp only [Prod.mk.injEq, Except.ok.injEq] at h
      rw [← h.1]
      exact buffer64_length _

theorem writeArgs_device (chipAddr : Nat) (args : List Nat) :
    (inst.writeArgs lib chipAddr args).device = inst.device := by
  unfold HPMPluginInstance.writeArgs
  split <;> rfl

theorem writeArgs_commandsOf (chipAddr : Nat) (args : List Nat) :
    commandsOf (inst.writeArgs lib chipAddr args).calls = commandsOf inst.calls := by
  unfold HPMPluginInstance.writeArgs
  split
  · show commandsOf (inst.calls ++ [Call.Write chipAddr 9 args 0]) = _
    induction inst.calls with
    | nil => rfl
    | cons c cs ih => cases c <;> simp [commandsOf, ih]
  · rfl

theorem writeArgs_readCount (chipAddr : Nat) (args : List Nat) :
    readCount (inst.writeArgs lib chipAddr args).calls = readCount inst.calls := by
  unfold HPMPluginInstance.writeArgs
  split
  · show readCount (inst.calls ++ [Call.Write chipAddr 9 args 0]) = _
    simp [readCount_append, readCount]
  · rfl

/-- C1. On a bound device, `command` first hands over the arguments, then
issues `Command`. When `Command` reports failure the result is `-1` and the
log grows by the `Command` call only (no `Read` is made); when `Command`
and the following `Read` of register 9 succeed the result is the first byte
of the 64-byte buffer masked with `0x0f`. Every returned result is `-1` or
lies in `[0, 15]`. -/
theorem command_result (chipAddr cmd : Nat) (args : List Nat) (hdev : inst.device = true)
    (ret : Nat × σ) (hret : lib.Command (inst.writeArgs lib chipAddr args).st chipAddr cmd 0 = ret)
    (rd : (Nat × List Nat) × σ) (hrd : lib.Read ret.2 chipAddr 9 64 0 = rd) :
    (ret.1 ≠ 0 →
      (inst.command lib chipAddr cmd args).1 = .ok (-1) ∧
      (inst.command lib chipAddr cmd args).2.calls =
        (inst.writeArgs lib chipAddr args).calls ++ [Call.Command chipAddr cmd 0] ∧
      readCount (inst.command lib chipAddr cmd args).2.calls = readCount inst.calls) ∧
    (ret.1 = 0 → rd.1.1 = 0 →
      (inst.command lib chipAddr cmd args).1 =
        .ok (((buffer64 rd.1.2).getD 0 0 &&& 0xf : Nat) : Int) ∧
      (inst.command lib chipAddr cmd args).2.calls =
        (inst.writeArgs lib chipAddr args).calls ++
          [Call.Command chipAddr cmd 0, Call.Read chipAddr 9 0]) ∧
    (∀ r : Int, (inst.command lib chipAddr cmd args).1 = .ok r → r = -1 ∨ (0 ≤ r ∧ r ≤ 15)) := by
  have hdev1 := writeArgs_device lib inst chipAddr args
  rw [hdev] at hdev1
  subst hret
  subst hrd
  refine ⟨?_, ?_, ?_⟩
  · intro hfail
    simp only [HPMPluginInstance.command, hdev, Bool.not_true, Bool.false_eq_true, if_false,
      hfail, ne_eq, not_false_eq_true, if_true, true_and]
    rw [readCount_append, writeArgs_readCount]
    simp [readCount]
  · intro hok hread
    simp only [HPMPluginInstance.command, hdev, Bool.not_true, Bool.false_eq_true, if_false,
      hok, ne_eq, not_true_eq_false, HPMPluginInstance.readRegister, hdev1, hread]
    simp [lowNibble_eq]
  · intro r hr
    simp only [HPMPluginInstance.command, hdev, Bool.not_true, Bool.false_eq_true,
      if_false] at hr
    split at hr
    · simp only [Except.ok.injEq] at hr
      exact Or.inl hr.symm
    · split at hr
      · simp at hr
      · simp only [Except.ok.injEq] at hr
        rw [← hr]
        exact Or.inr (lowNibble_range _)

/-- Witness: on a transport whose `Command` fails the
result is `-1`. -/
theorem command_result_witness :
    ((fresh ()).command noCommandLib 0 LOCK [0xde, 0xad, 0xbe, 0xef]).1 = .ok (-1) :=
  ((command_result noCommandLib (fresh ()) 0 LOCK [0xde, 0xad, 0xbe, 0xef] rfl _ rfl _ rfl).1
    (by decide)).1

theorem command_unbound (chipAddr cmd : Nat) (args : List Nat) (h : inst.device = false) :
    inst.command lib chipAddr cmd args =
      (.error (.failure "command failed: device not initialized"), inst) := by
  simp [HPMPluginInstance.command, h]

theorem command_device (chipAddr cmd : Nat) (args : List Nat) :
    (inst.command lib chipAddr cmd args).2.device = inst.device := by
  cases hd : inst.device
  · rw [command_unbound lib inst _ _ _ hd]
    exact hd
  · have hdev1 := writeArgs_device lib inst chipAddr args
    rw [hd] at hdev1
    simp only [HPMPluginInstance.command, hd, Bool.not_true, Bool.false_eq_true, if_false]
    split
    · exact hdev1
    · split
      · rename_i e inst3 heq
        have := readRegister_device lib
          { inst.writeArgs lib chipAddr args with
            st := (lib.Command (inst.writeArgs lib chipAddr args).st chipAddr cmd 0).2,
            calls := (inst.writeArgs lib chipAddr args).calls ++ [Call.Command chipAddr cmd 0] }
          chipAddr 9 0
        rw [heq] at this
        exact this.trans hdev1
      · rename_i res inst3 heq
        have := readRegister_device lib
          { inst.writeArgs lib chipAddr args with
            st := (lib.Command (inst.writeArgs lib chipAddr args).st chipAddr cmd 0).2,
            calls := (inst.writeArgs lib chipAddr args).calls ++ [Call.Command chipAddr cmd 0] }
          chipAddr 9 0
        rw [heq] at this
        exact this.trans hdev1

theorem command_ok_device (chipAddr cmd : Nat) (args : List Nat) (r : Int)
    (inst1 : HPMPluginInstance σ) (h : inst.command lib chipAddr cmd args = (.ok r, inst1)) :
    inst.device = true := by
  cases hd : inst.device
  · rw [command_unbound lib inst _ _ _ hd] at h
    simp at h
  · rfl

theorem readRegister_commandsOf (chipAddr dataAddr flags : Nat) :
    commandsOf (inst.readRegister lib chipAddr dataAddr flags).2.calls = commandsOf inst.calls := by
  cases hd : inst.device
  · rw [readRegister_unbound lib inst _ _ _ hd]
  · rw [readRegister_calls lib inst _ _ _ hd, commandsOf_append]
    simp [commandsOf]

theorem command_commandsOf (chipAddr cmd : Nat) (args : List Nat) (hd : inst.device = true) :
    commandsOf (inst.command lib chipAddr cmd args).2.calls =
      commandsOf inst.calls ++ [(chipAddr, cmd)] := by
  have key : commandsOf ((inst.writeArgs lib chipAddr args).calls ++ [Call.Command chipAddr cmd 0])
      = commandsOf inst.calls ++ [(chipAddr, cmd)] := by
    rw [commandsOf_append, writeArgs_commandsOf]
    rfl
  simp only [HPMPluginInstance.command, hd, Bool.not_true, Bool.false_eq_true, if_false]
  split
  · exact key
  · split
    · rename_i e inst3 heq
      have := readRegister_commandsOf lib
        { inst.writeArgs lib chipAddr args with
          st := (lib.Command (inst.writeArgs lib chipAddr args).st chipAddr cmd 0).2,
          calls := (inst.writeArgs lib chipAddr args).calls ++ [Call.Command chipAddr cmd 0] }
        chipAddr 9 0
      rw [heq] at this
      exact this.trans key
    · rename_i res inst3 heq
      have := readRegister_commandsOf lib
        { inst.writeArgs lib chipAddr args with
          st := (lib.Command (inst.writeArgs lib chipAddr args).st chipAddr cmd 0).2,
          calls := (inst.writeArgs lib chipAddr args).calls ++ [Call.Command chipAddr cmd 0] }
        chipAddr 9 0
      rw [heq] at this
      exact this.trans key

theorem readRegister_calls_ite (chipAddr dataAddr flags : Nat) :
    (inst.readRegister lib chipAddr dataAddr flags).2.calls =
      if inst.device = true then inst.calls ++ [Call.Read chipAddr dataAddr flags]
      else inst.calls := by
  cases hd : inst.device
  · rw [readRegister_unbound lib inst _ _ _ hd]
    simp
  · rw [readRegister_calls lib inst _ _ _ hd]
    simp

/-- The exact calls made by `command` on a bound device. -/
theorem command_calls (chipAddr cmd : Nat) (args : List Nat) (hd : inst.device = true) :
    (inst.command lib chipAddr cmd args).2.calls =
      (inst.writeArgs lib chipAddr args).calls ++ Call.Command chipAddr cmd 0 ::
        (if (lib.Command (inst.writeArgs lib chipAddr args).st chipAddr cmd 0).1 = 0
          then [Call.Read chipAddr 9 0] else []) := by
  have hdev1 := writeArgs_device lib inst chipAddr args
  rw [hd] at hdev1
  by_cases hret : (lib.Command (inst.writeArgs lib chipAddr args).st chipAddr cmd 0).1 = 0
  · simp only [HPMPluginInstance.command, hd, Bool.not_true, Bool.false_eq_true, if_false,
      hret, ne_eq, not_true_eq_false, if_true]
    split <;> rename_i heq <;>
      · have hr := congrArg (fun x => x.2.calls) heq
        dsimp only at hr
        rw [readRegister_calls_ite] at hr
        simp only [hdev1, if_true] at hr
        rw [← hr]
        simp
  · simp only [HPMPluginInstance.command, hd, Bool.not_true, Bool.false_eq_true, if_false,
      hret, ne_eq, not_false_eq_true, if_true]

end Command

/-! ## The unlock handshake -/

/-- C2. `UnlockAce` issues at most `LOCK`, `Gaid`, `LOCK`, in that order.
With `c1` the outcome of the first `LOCK`, `c2` the outcome of `Gaid` after
it and `c3` the outcome of the second `LOCK` after that: a first `LOCK`
returning 0 gives success after one `LOCK` and no `Gaid`; both `LOCK`s
nonzero with `Gaid` returning 0 gives failure after two `LOCK`s and one
`Gaid`; first `LOCK` and `Gaid` both nonzero gives failure after one `LOCK`
and one `Gaid`. Success happens exactly when the first `LOCK` returns 0, or
it returns nonzero, `Gaid` returns 0 and the second `LOCK` returns 0. -/
theorem UnlockAce_sequence {σ : Type} (ops : SsOps) (lib : AppleHPMLib σ)
    (inst : HPMPluginInstance σ) (no key : Nat)
    (c1 : Except Exn Int × HPMPluginInstance σ)
    (h1 : inst.command lib no LOCK (ops.put32 key) = c1)
    (c2 : Except Exn Int × HPMPluginInstance σ)
    (h2 : c1.2.command lib no Gaid [] = c2)
    (c3 : Except Exn Int × HPMPluginInstance σ)
    (h3 : c2.2.command lib no LOCK (ops.put32 key) = c3)
    (out : Except Exn Unit × HPMPluginInstance σ)
    (hout : UnlockAce ops lib inst no key = out) :
    (∃ l, commandsOf out.2.calls = commandsOf inst.calls ++ l ∧
      (l = [] ∨ l = [(no, LOCK)] ∨ l = [(no, LOCK), (no, Gaid)] ∨
        l = [(no, LOCK), (no, Gaid), (no, LOCK)])) ∧
    (c1.1 = .ok 0 →
      out.1 = .ok () ∧ commandsOf out.2.calls = commandsOf inst.calls ++ [(no, LOCK)]) ∧
    (∀ r1 r3 : Int, c1.1 = .ok r1 → r1 ≠ 0 → c2.1 = .ok 0 → c3.1 = .ok r3 → r3 ≠ 0 →
      out.1 = .error (.failure "Failed to unlock device") ∧
      commandsOf out.2.calls =
        commandsOf inst.calls ++ [(no, LOCK), (no, Gaid), (no, LOCK)]) ∧
    (∀ r1 r2 : Int, c1.1 = .ok r1 → r1 ≠ 0 → c2.1 = .ok r2 → r2 ≠ 0 →
      out.1 = .error (.failure "Failed to unlock device") ∧
      commandsOf out.2.calls = commandsOf inst.calls ++ [(no, LOCK), (no, Gaid)]) ∧
    (out.1 = .ok () ↔
      c1.1 = .ok 0 ∨ (∃ r1 : Int, c1.1 = .ok r1 ∧ r1 ≠ 0 ∧ c2.1 = .ok 0 ∧ c3.1 = .ok 0)) := by
  obtain ⟨r1, i1⟩ := c1
  obtain ⟨r2, i2⟩ := c2
  obtain ⟨r3, i3⟩ := c3
  dsimp only at h2 h3 ⊢
  subst hout
  cases hd : inst.device
  · rw [command_unbound lib inst _ _ _ hd] at h1
    simp only [Prod.mk.injEq] at h1
    obtain ⟨hr1, hi1⟩ := h1
    subst hr1
    simp [UnlockAce, command_unbound lib inst _ _ _ hd]
  · have hl1 := command_commandsOf lib inst no LOCK (ops.put32 key) hd
    have hd1 := command_device lib inst no LOCK (ops.put32 key)
    rw [h1] at hl1 hd1
    rw [hd] at hd1
    dsimp only at hl1 hd1
    have hl2 := command_commandsOf lib i1 no Gaid [] hd1
    have hd2 := command_device lib i1 no Gaid []
    rw [h2] at hl2 hd2
    rw [hd1] at hd2
    dsimp only at hl2 hd2
    have hl3 := command_commandsOf lib i2 no LOCK (ops.put32 key) hd2
    rw [h3] at hl3
    dsimp only at hl3
    rw [hl2, hl1] at hl3
    rw [hl1] at hl2
    simp only [List.append_assoc, List.singleton_append] at hl2 hl3
    cases r1 with
    | error e1 =>
      simp only [UnlockAce, h1]
      refine ⟨⟨_, hl1, by simp⟩, by simp, by simp, by simp, by simp⟩
    | ok v1 =>
      by_cases hv1 : v1 = 0
      · subst hv1
        simp only [UnlockAce, h1]
        refine ⟨⟨_, hl1, by simp⟩, by simp [hl1],
          fun r1 _ h hne => absurd (Except.ok.inj h).symm hne,
          fun r1 _ h hne => absurd (Except.ok.inj h).symm hne, by simp⟩
      · cases r2 with
        | error e2 =>
          simp only [UnlockAce, h1, h2, hv1, ne_eq, not_false_eq_true, if_true]
          refine ⟨⟨_, hl2, by simp⟩, by simp [hv1], by simp, by simp, by simp [hv1]⟩
        | ok v2 =>
          by_cases hv2 : v2 = 0
          · subst hv2
            cases r3 with
            | error e3 =>
              simp only [UnlockAce, h1, h2, h3, hv1, ne_eq, not_false_eq_true, if_true,
                not_true_eq_false, if_false]
              refine ⟨⟨_, hl3, by simp⟩, by simp [hv1], by simp, by simp, by simp [hv1]⟩
            | ok v3 =>
              by_cases hv3 : v3 = 0
              · subst hv3
                simp only [UnlockAce, h1, h2, h3, hv1, ne_eq, not_false_eq_true, if_true,
                  not_true_eq_false, if_false]
                refine ⟨⟨_, hl3, by simp⟩, by simp [hv1], by simp, by simp, by simp [hv1]⟩
              · simp only [UnlockAce, h1, h2, h3, hv1, hv3, ne_eq, not_false_eq_true, if_true,
                  not_true_eq_false, if_false]
                refine ⟨⟨_, hl3, by simp⟩, by simp [hv1], by simp [hl3], by simp,
                  by simp [hv1, hv3]⟩
          · simp only [UnlockAce, h1, h2, hv1, hv2, ne_eq, not_false_eq_true, if_true]
            refine ⟨⟨_, hl2, by simp⟩, by simp [hv1], by simp [hv2], by simp [hl2],
              by simp [hv1, hv2]⟩

/-- Witness: on a transport that refuses every
`LOCK` and accepts `Gaid`, the handshake fails after `LOCK`, `Gaid`, `LOCK`. -/
theorem UnlockAce_sequence_witness :
    (UnlockAce bigEndian lockedLib (fresh 0) 2 0xdeadbeef).1 =
        .error (.failure "Failed to unlock device") ∧
      commandsOf (UnlockAce bigEndian lockedLib (fresh 0) 2 0xdeadbeef).2.calls =
        commandsOf (fresh 0).calls ++ [(2, LOCK), (2, Gaid), (2, LOCK)] :=
  (UnlockAce_sequence bigEndian lockedLib (fresh 0) 2 0xdeadbeef _ rfl _ rfl _ rfl _ rfl).2.2.1
    1 1 rfl (by decide) rfl rfl (by decide)

/-! ## The VDM exchange -/

section VDM

variable {σ : Type} (lib : AppleHPMLib σ)

theorem afterReads_device (chipAddr dataAddr j : Nat) (inst : HPMPluginInstance σ) :
    (afterReads lib chipAddr dataAddr j inst).device = inst.device := by
  induction j generalizing inst with
  | zero => rfl
  | succ j ih =>
    show (afterReads lib chipAddr dataAddr j _).device = _
    rw [ih, readRegister_device]

theorem afterReads_calls (chipAddr dataAddr j : Nat) (inst : HPMPluginInstance σ)
    (hd : inst.device = true) :
    (afterReads lib chipAddr dataAddr j inst).calls =
      inst.calls ++ List.replicate j (Call.Read chipAddr dataAddr 0) := by
  induction j generalizing inst with
  | zero => simp [afterReads]
  | succ j ih =>
    show (afterReads lib chipAddr dataAddr j _).calls = _
    rw [ih _ (by rw [readRegister_device]; exact hd), readRegister_calls lib inst _ _ _ hd,
      List.replicate_succ]
    simp

/-- When the first `n` reads all succeed and show the baseline byte, the
polling loop runs all `n` iterations. -/
theorem pollLoop_same (no rxst : Nat) (n : Nat) :
    ∀ (i : Nat) (rs : List Nat) (inst : HPMPluginInstance σ),
      (∀ j, 1 ≤ j → j ≤ n → ∃ b, pollRead lib no inst j = .ok b ∧ b.getD 0 0 = rxst) →
      ∃ rs1, pollLoop lib no rxst n i rs inst = (.ok (i + n, rs1), afterReads lib no 0x4d n inst) := by
  induction n with
  | zero =>
    intro i rs inst _
    exact ⟨rs, rfl⟩
  | succ n ih =>
    intro i rs inst h
    obtain ⟨b, hb, hb0⟩ := h 1 (le_refl 1) (by omega)
    rcases hr : inst.readRegister lib no 0x4d 0 with ⟨r, inst1⟩
    have hb1 : r = .ok b := by
      have : pollRead lib no inst 1 = r := by
        show (inst.readRegister lib no 0x4d 0).1 = r
        rw [hr]
      rw [← this, hb]
    subst hb1
    have hnext : ∀ j, 1 ≤ j → j ≤ n →
        ∃ b, pollRead lib no inst1 j = .ok b ∧ b.getD 0 0 = rxst := by
      intro j hj1 hjn
      obtain ⟨c, hc, hc0⟩ := h (j + 1) (by omega) (by omega)
      refine ⟨c, ?_, hc0⟩
      rw [← hc]
      unfold pollRead
      obtain ⟨m, rfl⟩ : ∃ m, j = m + 1 := ⟨j - 1, by omega⟩
      show _ = ((afterReads lib no 0x4d m (inst.readRegister lib no 0x4d 0).2).readRegister
        lib no 0x4d 0).1
      rw [hr]
      rfl
    obtain ⟨rs1, hrs1⟩ := ih (i + 1) b inst1 hnext
    refine ⟨rs1, ?_⟩
    simp only [pollLoop, hr, hb0, ne_eq, not_true_eq_false, if_false, hrs1]
    have : afterReads lib no 0x4d (n + 1) inst = afterReads lib no 0x4d n inst1 := by
      show afterReads lib no 0x4d n (inst.readRegister lib no 0x4d 0).2 = _
      rw [hr]
    rw [this]
    congr 3
    omega

/-- When reads `1 .. k-1` succeed with the baseline byte and read `k`
succeeds with another byte, the polling loop stops in iteration `k` (with
`i = k - 1` counted from the start). -/
theorem pollLoop_change (no rxst : Nat) (k : Nat) :
    ∀ (n i : Nat) (rs : List Nat) (inst : HPMPluginInstance σ) (bk : List Nat),
      1 ≤ k → k ≤ n →
      (∀ j, 1 ≤ j → j < k → ∃ b, pollRead lib no inst j = .ok b ∧ b.getD 0 0 = rxst) →
      pollRead lib no inst k = .ok bk → bk.getD 0 0 ≠ rxst →
      pollLoop lib no rxst n i rs inst = (.ok (i + (k - 1), bk), afterReads lib no 0x4d k inst) := by
  induction k with
  | zero => intro n i rs inst bk h; omega
  | succ k ih =>
    intro n i rs inst bk _ hkn hsame hk hdiff
    obtain ⟨n, rfl⟩ : ∃ m, n = m + 1 := ⟨n - 1, by omega⟩
    rcases hr : inst.readRegister lib no 0x4d 0 with ⟨r, inst1⟩
    have hshift : ∀ j, 1 ≤ j → pollRead lib no inst (j + 1) = pollRead lib no inst1 j := by
      intro j hj
      unfold pollRead
      obtain ⟨m, rfl⟩ : ∃ m, j = m + 1 := ⟨j - 1, by omega⟩
      show ((afterReads lib no 0x4d m (inst.readRegister lib no 0x4d 0).2).readRegister
        lib no 0x4d 0).1 = _
      rw [hr]
      rfl
    have hafter : ∀ j, afterReads lib no 0x4d (j + 1) inst = afterReads lib no 0x4d j inst1 := by
      intro j
      show afterReads lib no 0x4d j (inst.readRegister lib no 0x4d 0).2 = _
      rw [hr]
    have hfirst : pollRead lib no inst 1 = r := by
      show (inst.readRegister lib no 0x4d 0).1 = r
      rw [hr]
    by_cases hk0 : k = 0
    · subst hk0
      rw [hfirst] at hk
      subst hk
      simp only [pollLoop, hr, hdiff, ne_eq, not_false_eq_true, if_true]
      rw [hafter]
      rfl
    · obtain ⟨b, hb, hb0⟩ := hsame 1 (le_refl 1) (by omega)
      rw [hfirst] at hb
      subst hb
      have hrec := ih n (i + 1) b inst1 bk (by omega) (by omega)
        (fun j hj1 hjk => by
          rw [← hshift j hj1]
          exact hsame (j + 1) (by omega) (by omega))
        (by rw [← hshift k (by omega)]; exact hk) hdiff
      simp only [pollLoop, hr, hb0, ne_eq, not_true_eq_false, if_false, hrec]
      rw [hafter]
      congr 3
      omega

theorem or_ack_ne (v : Nat) (h : v &&& 0x40 = 0) : v ||| 0x40 ≠ v := by
  intro hv
  have h1 : (v ||| 0x40).testBit 6 = true := by
    rw [Nat.testBit_or]
    have : (0x40 : Nat).testBit 6 = true := by decide
    simp [this]
  have h2 : (v &&& 0x40).testBit 6 = (v.testBit 6 && (0x40 : Nat).testBit 6) :=
    Nat.testBit_and _ _ _
  rw [hv] at h1
  rw [h, h1] at h2
  simp only [Nat.zero_testBit, Bool.true_and] at h2
  exact absurd h2.symm (by decide)

/-- C3. Let the baseline read of register `0x4d` succeed with buffer `rs`,
the `VDMs` command return 0, poll reads `1 .. k-1` show the baseline byte
and poll read `k` (`1 ≤ k ≤ 16`) show another byte in buffer `bk`. Then
`DoVDM` makes exactly `k` poll reads after the command, and succeeds when the
32-bit word decoded by `get32` from the four bytes that follow the status
byte of `bk` (bytes 1 to 4) equals `words[0] | 0x40`, failing with
`"VDM failed"` otherwise; in particular a header equal to `words[0]` with
bit `0x40` clear is rejected. -/
theorem DoVDM_reply (ops : SsOps) (inst : HPMPluginInstance σ) (no v0 : Nat) (rest : List Nat)
    (k : Nat) (hk1 : 1 ≤ k) (hk16 : k ≤ 16)
    (rs : List Nat) (inst1 : HPMPluginInstance σ)
    (hbase : inst.readRegister lib no 0x4d 0 = (.ok rs, inst1))
    (inst2 : HPMPluginInstance σ)
    (hcmd : inst1.command lib no VDMs (vdmFrame ops (v0 :: rest)) = (.ok 0, inst2))
    (hsame : ∀ j, 1 ≤ j → j < k →
      ∃ b, pollRead lib no inst2 j = .ok b ∧ b.getD 0 0 = rs.getD 0 0)
    (bk : List Nat) (hk : pollRead lib no inst2 k = .ok bk)
    (hdiff : bk.getD 0 0 ≠ rs.getD 0 0) :
    (DoVDM ops lib inst no (v0 :: rest)).1 =
        (if ops.get32 ((bk.drop 1).take 4) = (v0 ||| 0x40) then .ok ()
          else .error (.failure "VDM failed")) ∧
      (DoVDM ops lib inst no (v0 :: rest)).2.calls =
        inst2.calls ++ List.replicate k (Call.Read no 0x4d 0) ∧
      (ops.get32 ((bk.drop 1).take 4) = v0 → v0 &&& 0x40 = 0 →
        (DoVDM ops lib inst no (v0 :: rest)).1 = .error (.failure "VDM failed")) ∧
      (bk.length = 64 ∧
        (bk.drop 1).take 4 = [bk.getD 1 0, bk.getD 2 0, bk.getD 3 0, bk.getD 4 0]) := by
  have hd2 : inst2.device = true := by
    have h1 := command_ok_device lib inst1 _ _ _ _ _ hcmd
    have h2 := command_device lib inst1 no VDMs (vdmFrame ops (v0 :: rest))
    rw [hcmd, h1] at h2
    exact h2
  have hpoll := pollLoop_change lib no (rs.getD 0 0) k 16 0 rs inst2 bk hk1 hk16 hsame hk hdiff
  have hlt : ¬ (0 + (k - 1) ≥ 16) := by omega
  have hres : DoVDM ops lib inst no (v0 :: rest) =
      (if ops.get32 ((bk.drop 1).take 4) ≠ (v0 ||| 0x40) then
          (.error (.failure "VDM failed"), afterReads lib no 0x4d k inst2)
        else (.ok (), afterReads lib no 0x4d k inst2)) := by
    simp only [DoVDM, replyHeader, hbase, hcmd, hpoll, ne_eq, not_true_eq_false, if_false, hlt,
      List.head?_cons]
  have hlen : bk.length = 64 := by
    rcases hr : (afterReads lib no 0x4d (k - 1) inst2).readRegister lib no 0x4d 0 with ⟨r, i3⟩
    have hk2 : r = .ok bk := by
      have : pollRead lib no inst2 k = r := by
        show ((afterReads lib no 0x4d (k - 1) inst2).readRegister lib no 0x4d 0).1 = r
        rw [hr]
      rw [← this, hk]
    subst hk2
    exact readRegister_ok_length lib _ _ _ _ _ _ hr
  rw [hres]
  refine ⟨?_, ?_, ?_, hlen, ?_⟩
  · by_cases hh : ops.get32 ((bk.drop 1).take 4) = (v0 ||| 0x40)
    · rw [if_neg (not_not_intro hh), if_pos hh]
    · rw [if_pos hh, if_neg hh]
  · by_cases hh : ops.get32 ((bk.drop 1).take 4) = (v0 ||| 0x40)
    · rw [if_neg (not_not_intro hh)]
      exact afterReads_calls lib no 0x4d k inst2 hd2
    · rw [if_pos hh]
      exact afterReads_calls lib no 0x4d k inst2 hd2
  · intro hv hbit
    have hne : ops.get32 ((bk.drop 1).take 4) ≠ (v0 ||| 0x40) := by
      rw [hv]
      exact fun h => or_ack_ne v0 hbit h.symm
    rw [if_pos hne]
  · rcases bk with _ | ⟨b0, _ | ⟨b1, _ | ⟨b2, _ | ⟨b3, _ | ⟨b4, t⟩⟩⟩⟩⟩ <;>
      simp at hlen ⊢

/-- C4. Let the baseline read of register `0x4d` succeed with buffer `rs`,
the `VDMs` command return 0, and each of the next 16 reads of `0x4d` succeed
with the baseline byte. Then `DoVDM` fails with `"Did not get a reply to
VDM\n"` after exactly 16 poll reads, and the outcome is the same whatever
header decoder `get32` is in use. -/
theorem DoVDM_timeout (ops : SsOps) (inst : HPMPluginInstance σ) (no : Nat) (vdm : List Nat)
    (rs : List Nat) (inst1 : HPMPluginInstance σ)
    (hbase : inst.readRegister lib no 0x4d 0 = (.ok rs, inst1))
    (inst2 : HPMPluginInstance σ)
    (hcmd : inst1.command lib no VDMs (vdmFrame ops vdm) = (.ok 0, inst2))
    (hsame : ∀ j, 1 ≤ j → j ≤ 16 →
      ∃ b, pollRead lib no inst2 j = .ok b ∧ b.getD 0 0 = rs.getD 0 0) :
    (DoVDM ops lib inst no vdm).1 = .error (.failure "Did not get a reply to VDM\n") ∧
      (DoVDM ops lib inst no vdm).2.calls =
        inst2.calls ++ List.replicate 16 (Call.Read no 0x4d 0) ∧
      (∀ decode : List Nat → Nat,
        DoVDM { ops with get32 := decode } lib inst no vdm = DoVDM ops lib inst no vdm) := by
  have hd2 : inst2.device = true := by
    have h1 := command_ok_device lib inst1 _ _ _ _ _ hcmd
    have h2 := command_device lib inst1 no VDMs (vdmFrame ops vdm)
    rw [hcmd, h1] at h2
    exact h2
  obtain ⟨rs1, hpoll⟩ := pollLoop_same lib no (rs.getD 0 0) 16 0 rs inst2 hsame
  have hres : ∀ ops1 : SsOps, ops1.put32 = ops.put32 → DoVDM ops1 lib inst no vdm =
      (.error (.failure "Did not get a reply to VDM\n"), afterReads lib no 0x4d 16 inst2) := by
    intro ops1 hput
    have hframe : vdmFrame ops1 vdm = vdmFrame ops vdm := by
      simp [vdmFrame, hput]
    simp only [DoVDM, hbase, hframe, hcmd, hpoll, ne_eq, not_true_eq_false, if_false,
      Nat.zero_add, ge_iff_le, le_refl, if_true]
  refine ⟨?_, ?_, ?_⟩
  · rw [hres ops rfl]
  · rw [hres ops rfl]
    exact afterReads_calls lib no 0x4d 16 inst2 hd2
  · intro decode
    rw [hres ops rfl, hres { ops with get32 := decode } rfl]

/-- Witness: the sequence byte changes on the third poll
read and the reply header is the request header with bit `0x40` set. -/
theorem DoVDM_reply_witness :
    (DoVDM bigEndian (replyLib 3 [0x05, 0xac, 0x80, 0x52]) (fresh 0) 0 dfuRequest).1 = .ok () ∧
      readCount
        (DoVDM bigEndian (replyLib 3 [0x05, 0xac, 0x80, 0x52]) (fresh 0) 0 dfuRequest).2.calls
        = 5 := by
  have h := DoVDM_reply (replyLib 3 [0x05, 0xac, 0x80, 0x52]) bigEndian (fresh 0) 0
    0x5ac8012 [0x106, 0x80010000] 3 (by decide) (by decide) _ _ rfl _ rfl
    (by intro j h1 h3; interval_cases j <;> exact ⟨_, rfl, rfl⟩) _ rfl (by decide)
  refine ⟨h.1.trans rfl, ?_⟩
  show readCount (DoVDM bigEndian (replyLib 3 [0x05, 0xac, 0x80, 0x52]) (fresh 0) 0
    (0x5ac8012 :: [0x106, 0x80010000])).2.calls = 5
  rw [h.2.1]
  rfl

/-- Witness: a transport whose registers never change. -/
theorem DoVDM_timeout_witness :
    (DoVDM bigEndian quietLib (fresh ()) 0 dfuRequest).1 =
        .error (.failure "Did not get a reply to VDM\n") ∧
      readCount (DoVDM bigEndian quietLib (fresh ()) 0 dfuRequest).2.calls = 18 := by
  have h := DoVDM_timeout quietLib bigEndian (fresh ()) 0 dfuRequest _ _ rfl _ rfl
    (by intro j h1 h16; interval_cases j <;> exact ⟨_, rfl, rfl⟩)
  refine ⟨h.1, ?_⟩
  rw [h.2.1]
  rfl

theorem pollLoop_commandsOf (no rxst : Nat) (n : Nat) :
    ∀ (i : Nat) (rs : List Nat) (inst : HPMPluginInstance σ),
      commandsOf (pollLoop lib no rxst n i rs inst).2.calls = commandsOf inst.calls := by
  induction n with
  | zero => intro i rs inst; rfl
  | succ n ih =>
    intro i rs inst
    rcases hr : inst.readRegister lib no 0x4d 0 with ⟨r, inst1⟩
    have h1 : commandsOf inst1.calls = commandsOf inst.calls := by
      have := readRegister_commandsOf lib inst no 0x4d 0
      rw [hr] at this
      exact this
    cases r with
    | error e =>
      simp only [pollLoop, hr]
      exact h1
    | ok rs1 =>
      simp only [pollLoop, hr]
      split
      · exact h1
      · rw [ih, h1]

/-- The only command `DoVDM` can issue is `VDMs` on its port, at most once. -/
theorem DoVDM_commandsOf (ops : SsOps) (inst : HPMPluginInstance σ) (no : Nat)
    (vdm : List Nat) :
    commandsOf (DoVDM ops lib inst no vdm).2.calls = commandsOf inst.calls ∨
      commandsOf (DoVDM ops lib inst no vdm).2.calls = commandsOf inst.calls ++ [(no, VDMs)] := by
  rcases hr : inst.readRegister lib no 0x4d 0 with ⟨r, inst1⟩
  have h1 : commandsOf inst1.calls = commandsOf inst.calls := by
    have := readRegister_commandsOf lib inst no 0x4d 0
    rw [hr] at this
    exact this
  cases r with
  | error e =>
    left
    simp only [DoVDM, hr]
    exact h1
  | ok rs =>
    have hd1 : inst1.device = true := by
      have h := readRegister_device lib inst no 0x4d 0
      rw [hr, readRegister_ok_device lib inst _ _ _ _ _ hr] at h
      exact h
    rcases hc : inst1.command lib no VDMs (vdmFrame ops vdm) with ⟨r2, inst2⟩
    have h2 : commandsOf inst2.calls = commandsOf inst.calls ++ [(no, VDMs)] := by
      have := command_commandsOf lib inst1 no VDMs (vdmFrame ops vdm) hd1
      rw [hc, h1] at this
      exact this
    right
    cases r2 with
    | error e =>
      simp only [DoVDM, hr, hc]
      exact h2
    | ok v =>
      by_cases hv : v = 0
      · subst hv
        rcases hp : pollLoop lib no (rs.getD 0 0) 16 0 rs inst2 with ⟨r3, inst3⟩
        have h3 : commandsOf inst3.calls = commandsOf inst.calls ++ [(no, VDMs)] := by
          have := pollLoop_commandsOf lib no (rs.getD 0 0) 16 0 rs inst2
          rw [hp, h2] at this
          exact this
        simp only [DoVDM, hr, hc, hp, ne_eq, not_true_eq_false, if_false]
        cases r3 with
        | error e => exact h3
        | ok q =>
          obtain ⟨i, rs1⟩ := q
          dsimp only
          split
          · exact h3
          · split
            · exact h3
            · split <;> exact h3
      · simp only [DoVDM, hr, hc, hv, ne_eq, not_false_eq_true, if_true]
        exact h2

theorem DoDFU_commandsOf (ops : SsOps) (inst : HPMPluginInstance σ) (no : Nat) :
    commandsOf (DoDFU ops lib inst no).2.calls = commandsOf inst.calls ∨
      commandsOf (DoDFU ops lib inst no).2.calls = commandsOf inst.calls ++ [(no, VDMs)] := by
  have h := DoVDM_commandsOf lib ops inst no dfuRequest
  unfold DoDFU
  split <;> rename_i heq <;> rw [heq] at h <;> exact h

end VDM

/-! ## The status check -/

theorem take_indexOf_zero (l : List Nat) (h : 0 ∈ l) :
    l.take (l.indexOf 0) = l.takeWhile (fun b => b != 0) := by
  induction l with
  | nil => simp
  | cons a t ih =>
    by_cases ha : a = 0
    · subst ha
      simp
    · have h2 : 0 ∈ t := by simpa [Ne.symm ha] using h
      simp [List.indexOf_cons, ha, ih h2, List.takeWhile_cons]

theorem takeWhile_eq_iff (p : List Nat) (hp : ∀ x ∈ p, x ≠ 0) :
    ∀ l : List Nat, 0 ∈ l →
      (l.takeWhile (fun b => b != 0) = p ↔ l.take (p.length + 1) = p ++ [0]) := by
  induction p with
  | nil =>
    intro l hl
    cases l with
    | nil => simp at hl
    | cons a t =>
      by_cases ha : a = 0
      · simp [ha]
      · simp [ha]
  | cons x p ih =>
    intro l hl
    have hx : x ≠ 0 := hp x (List.mem_cons_self _ _)
    have hp1 : ∀ y ∈ p, y ≠ 0 := fun y hy => hp y (List.mem_cons_of_mem _ hy)
    cases l with
    | nil => simp at hl
    | cons a t =>
      by_cases ha : a = 0
      · subst ha
        simp [Ne.symm hx]
      · have ht : 0 ∈ t := by
          rcases List.mem_cons.mp hl with h | h
          · exact absurd h.symm ha
          · exact h
        have := ih hp1 t ht
        simp [ha, List.takeWhile_cons, this]

theorem statusDiffers_of_mem (res : List Nat) (hnul : 0 ∈ res) :
    statusDiffers res = .ok (res.takeWhile (fun b => b != 0) != strDBMa) := by
  have hle : ¬ (res.indexOf 0 > res.length) := not_lt.mpr List.indexOf_le_length
  have hlit : stringOfLiteral strDBMa = strDBMa := by decide
  simp only [statusDiffers, erase, find, hnul, if_true, hle, if_false, hlit,
    take_indexOf_zero res hnul]

theorem trimmed_eq_DBMa_iff (l : List Nat) (hl : 0 ∈ l) :
    (l.takeWhile (fun b => b != 0) != strDBMa) = false ↔ l.take 5 = strDBMa ++ [0] := by
  have hnz : ∀ x ∈ strDBMa, x ≠ 0 := by decide
  have h := takeWhile_eq_iff strDBMa hnz l hl
  have h5 : strDBMa.length + 1 = 5 := by decide
  rw [h5] at h
  rw [← h]
  simp

/-- C7, as amended. For every buffer that contains a null byte, the status
check completes without error, and its test `res != "DBMa"` is false (the
port counts as being in DBMa mode) exactly when the first five bytes are
`'D','B','M','a'` and a null byte; two such buffers that agree on their
first five bytes get the same verdict. -/
theorem statusDiffers_terminated (res : List Nat) (hnul : 0 ∈ res) :
    (∃ d, statusDiffers res = .ok d ∧ (d = false ↔ res.take 5 = strDBMa ++ [0])) ∧
      (∀ res1 : List Nat, 0 ∈ res1 → res1.take 5 = res.take 5 →
        statusDiffers res1 = statusDiffers res) := by
  refine ⟨⟨_, statusDiffers_of_mem res hnul, trimmed_eq_DBMa_iff res hnul⟩, ?_⟩
  intro res1 hnul1 htake
  rw [statusDiffers_of_mem res hnul, statusDiffers_of_mem res1 hnul1]
  congr 1
  have h1 := trimmed_eq_DBMa_iff res1 hnul1
  have h2 := trimmed_eq_DBMa_iff res hnul
  rw [htake] at h1
  cases hb : (res.takeWhile (fun b => b != 0) != strDBMa)
  · exact h1.mpr (h2.mp hb)
  · cases hb1 : (res1.takeWhile (fun b => b != 0) != strDBMa)
    · rw [h2.mpr (h1.mp hb1)] at hb
      exact absurd hb (by decide)
    · rfl

/-- Witness: the buffer `"DBMa"` padded with
zeros counts as DBMa mode. -/
theorem statusDiffers_terminated_witness :
    ∃ d, statusDiffers (buffer64 strDBMa) = .ok d ∧
      (d = false ↔ (buffer64 strDBMa).take 5 = strDBMa ++ [0]) :=
  (statusDiffers_terminated (buffer64 strDBMa) (by decide)).1

/-- C7 as stated fails. The 64-byte buffer `"DBMaX"` padded with zeros has
bytes 0..3 equal to `"DBMa"`, yet the test `res != "DBMa"` is true; and on the
64-byte buffer `"DBMa"` followed by 60 spaces, which has no null byte, the
check ends in `std::out_of_range`. -/
theorem statusDiffers_counterexample :
    (paddedStatus.length = 64 ∧ paddedStatus.take 4 = strDBMa ∧
        statusDiffers paddedStatus = .ok true) ∧
      (unterminatedStatus.length = 64 ∧ unterminatedStatus.take 4 = strDBMa ∧
        statusDiffers unterminatedStatus = .error .out_of_range) := by
  refine ⟨⟨by decide, by decide, ?_⟩, ⟨by decide, by decide, ?_⟩⟩
  · rfl
  · rfl

/-! ## The port loop -/

section Ports

variable {σ : Type} (ops : SsOps) (lib : AppleHPMLib σ) (key : Nat)

/-- C6. When the status register `0x03` of port `no`, read right after the
connection register `0x3f`, shows `'D','B','M','a'` and a null byte, the
commands issued while processing that port are at most one `VDMs` on that
port: no `LOCK`, no `Gaid` and no `DBMa` command is issued. -/
theorem portBody_already_DBMa (inst : HPMPluginInstance σ) (no : Nat) (buf : List Nat)
    (hstatus : ((inst.readRegister lib no 0x3f 0).2.readRegister lib no 0x03 0).1 = .ok buf)
    (hbuf : buf.take 5 = strDBMa ++ [0]) :
    (commandsOf (portBody ops lib key inst no).2.calls = commandsOf inst.calls ∨
      commandsOf (portBody ops lib key inst no).2.calls =
        commandsOf inst.calls ++ [(no, VDMs)]) ∧
      VDMs ≠ LOCK ∧ VDMs ≠ Gaid ∧ VDMs ≠ DBMa := by
  refine ⟨?_, by decide, by decide, by decide⟩
  have hnul : 0 ∈ buf := by
    have h0 : 0 ∈ buf.take 5 := by
      rw [hbuf]
      decide
    exact List.mem_of_mem_take h0
  have hd : statusDiffers buf = .ok false := by
    rw [statusDiffers_of_mem buf hnul, (trimmed_eq_DBMa_iff buf hnul).mpr hbuf]
  rcases h3f : inst.readRegister lib no 0x3f 0 with ⟨r, inst1⟩
  have h1 : commandsOf inst1.calls = commandsOf inst.calls := by
    have := readRegister_commandsOf lib inst no 0x3f 0
    rw [h3f] at this
    exact this
  cases r with
  | error e =>
    left
    simp only [portBody, h3f]
    exact h1
  | ok t =>
    rw [h3f] at hstatus
    rcases h03 : inst1.readRegister lib no 0x03 0 with ⟨r2, inst2⟩
    have h2 : commandsOf inst2.calls = commandsOf inst.calls := by
      have := readRegister_commandsOf lib inst1 no 0x03 0
      rw [h03, h1] at this
      exact this
    rw [h03] at hstatus
    dsimp only at hstatus
    subst hstatus
    have hdfu := DoDFU_commandsOf lib ops inst2 no
    rw [h2] at hdfu
    simp only [portBody, h3f, h03, hd, Bool.false_eq_true, if_false]
    split <;> rename_i heq <;> rw [heq] at hdfu <;> exact hdfu

/-- Witness: a port already in DBMa mode gets
exactly the `VDMs` command. -/
theorem portBody_already_DBMa_witness :
    commandsOf (portBody bigEndian (replyLib 3 [0x05, 0xac, 0x80, 0x52]) 0xdeadbeef
      (fresh 0) 1).2.calls = [(1, VDMs)] := by
  have h := (portBody_already_DBMa bigEndian (replyLib 3 [0x05, 0xac, 0x80, 0x52]) 0xdeadbeef
    (fresh 0) 1 (buffer64 strDBMa) rfl (by decide)).1
  rcases h with h | h
  · exact absurd h (by decide)
  · exact h

theorem portLoop_add (a : Nat) :
    ∀ (b no : Nat) (inst : HPMPluginInstance σ),
      portLoop ops lib key (a + b) no inst =
        match portLoop ops lib key a no inst with
        | (.error e, inst1) => (.error e, inst1)
        | (.ok _, inst1) => portLoop ops lib key b (no + a) inst1 := by
  induction a with
  | zero =>
    intro b no inst
    simp [portLoop]
  | succ a ih =>
    intro b no inst
    have hab : a + 1 + b = (a + b) + 1 := by omega
    rw [hab]
    rcases hb : portBody ops lib key inst no with ⟨r, inst1⟩
    cases r with
    | error e => simp only [portLoop, hb]
    | ok u =>
      simp only [portLoop, hb]
      rw [ih]
      have hno : no + 1 + a = no + (a + 1) := by omega
      rw [hno]

/-- C5, as amended. The `catch` for `failure` encloses the whole port loop of
a device. When ports `0 .. p-1` are processed without exception and port `p`
(`p < 5`) throws a `failure`, the exception is caught, the device is left in
the state it had when port `p` failed (ports `p+1 .. 4` are not processed),
and the loop over devices goes on with the remaining devices. -/
theorem processDevice_failure (inst : HPMPluginInstance σ) (p : Nat) (hp : p < 5)
    (instp inste : HPMPluginInstance σ) (msg : String)
    (hprev : portLoop ops lib key p 0 inst = (.ok (), instp))
    (hfail : portBody ops lib key instp p = (.error (.failure msg), inste)) :
    processDevice ops lib key inst = (.ok (), inste) ∧
      (∀ rest : List (HPMPluginInstance σ),
        deviceLoop ops lib key (inst :: rest) =
          ((deviceLoop ops lib key rest).1, inste :: (deviceLoop ops lib key rest).2)) := by
  have hloop : portLoop ops lib key 5 0 inst = (.error (.failure msg), inste) := by
    obtain ⟨m, hm⟩ : ∃ m, 5 = p + (m + 1) := ⟨4 - p, by omega⟩
    rw [hm, portLoop_add, hprev]
    simp only [Nat.zero_add, portLoop, hfail]
  have hdev : processDevice ops lib key inst = (.ok (), inste) := by
    simp only [processDevice, hloop]
  refine ⟨hdev, ?_⟩
  intro rest
  simp only [deviceLoop, hdev]

/-- Witness: on a transport whose reads fail,
port 0 fails at once and the device is left after that single read. -/
theorem processDevice_failure_witness :
    processDevice bigEndian deadLib 0xdeadbeef (fresh ()) =
      (.ok (), { fresh () with calls := [Call.Read 0 0x3f 0] }) :=
  (processDevice_failure bigEndian deadLib 0xdeadbeef (fresh ()) 0 (by decide)
    (fresh ()) { fresh () with calls := [Call.Read 0 0x3f 0] } "readRegister failed"
    rfl rfl).1

/-- C5 as stated fails. On a transport whose reads fail, processing of port
0 throws, the exception is caught, and the device has then received a single
call, the read of register `0x3f` of port 0: ports 1 to 4 are never
processed (processing a port starts by reading its register `0x3f`). -/
theorem processDevice_counterexample :
    (portBody bigEndian deadLib 0xdeadbeef (fresh ()) 0).1 =
        .error (.failure "readRegister failed") ∧
      (processDevice bigEndian deadLib 0xdeadbeef (fresh ())).1 = .ok () ∧
      (processDevice bigEndian deadLib 0xdeadbeef (fresh ())).2.calls = [Call.Read 0 0x3f 0] ∧
      (∀ no, 1 ≤ no → Call.Read no 0x3f 0 ∉
        (processDevice bigEndian deadLib 0xdeadbeef (fresh ())).2.calls) := by
  refine ⟨rfl, rfl, rfl, ?_⟩
  intro no hno hmem
  have hcalls : (processDevice bigEndian deadLib 0xdeadbeef (fresh ())).2.calls =
      [Call.Read 0 0x3f 0] := rfl
  rw [hcalls] at hmem
  simp only [List.mem_singleton, Call.Read.injEq] at hmem
  omega

end Ports

/-! ## Argument bytes: the `Write` of `command` and the destructor -/

/-- C8 fails on the code. On a transport whose `Write` fails, `writeRegister`
throws `failure`, whereas `command` with the same four argument bytes makes the
`Write`, drops its `IOReturn`, issues the command and returns the result code
0 read back from register 9. -/
theorem command_drops_write_failure :
    (noWriteLib.Write () 0 9 [0xde, 0xad, 0xbe, 0xef] 0).1 ≠ 0 ∧
      ((fresh ()).writeRegister noWriteLib 0 9 [0xde, 0xad, 0xbe, 0xef]).1 =
        .error (.failure "writeRegister failed") ∧
      ((fresh ()).command noWriteLib 0 LOCK [0xde, 0xad, 0xbe, 0xef]).1 = .ok 0 ∧
      ((fresh ()).command noWriteLib 0 LOCK [0xde, 0xad, 0xbe, 0xef]).2.calls =
        [Call.Write 0 9 [0xde, 0xad, 0xbe, 0xef] 0, Call.Command 0 LOCK 0, Call.Read 0 9 0] := by
  refine ⟨by decide, rfl, rfl, rfl⟩

/-- C10 fails on the code. The `std::string` built from the literal `"\x00"`
is empty while the one built from `"\x01"` holds the byte 1; so the
destructor of a bound handle makes no `Write`: it issues `DBMa` on port 0 and,
when that succeeds, reads register 9. The mode-entry call
`command(no, 'DBMa', "\x01")` does start with a `Write` of the byte 1. -/
theorem destroy_makes_no_write {σ : Type} (lib : AppleHPMLib σ) (inst : HPMPluginInstance σ)
    (hplugin : inst.plugin = true) (hdev : inst.device = true) :
    stringOfLiteral [0x00] = [] ∧ stringOfLiteral [0x01] = [0x01] ∧
      ((inst.destroy lib).2.calls = inst.calls ++ [Call.Command 0 DBMa 0] ∨
        (inst.destroy lib).2.calls =
          inst.calls ++ [Call.Command 0 DBMa 0, Call.Read 0 9 0]) ∧
      (∀ no, ∃ l, (inst.command lib no DBMa (stringOfLiteral [0x01])).2.calls =
        inst.calls ++ Call.Write no 9 [0x01] 0 :: Call.Command no DBMa 0 :: l) := by
  have h0 : stringOfLiteral [0x00] = [] := by decide
  have h1 : stringOfLiteral [0x01] = [0x01] := by decide
  refine ⟨h0, h1, ?_, ?_⟩
  · have hw : inst.writeArgs lib 0 [] = inst := by
      simp [HPMPluginInstance.writeArgs]
    have hdes : (inst.destroy lib).2.calls = (inst.command lib 0 DBMa []).2.calls := by
      simp only [HPMPluginInstance.destroy, hplugin, hdev, if_true, h0]
      split <;> rename_i heq <;> rw [heq]
    rw [hdes, command_calls lib inst 0 DBMa [] hdev, hw]
    by_cases hret : (lib.Command inst.st 0 DBMa 0).1 = 0
    · right
      simp [hret]
    · left
      simp [hret]
  · intro no
    have hw : (inst.writeArgs lib no [0x01]).calls = inst.calls ++ [Call.Write no 9 [0x01] 0] := by
      simp [HPMPluginInstance.writeArgs]
    rw [h1, command_calls lib inst no DBMa [0x01] hdev, hw]
    refine ⟨if (lib.Command (inst.writeArgs lib no [0x01]).st no DBMa 0).1 = 0
      then [Call.Read no 9 0] else [], ?_⟩
    simp

/-- Witness: tearing down a fresh handle on a
quiet transport logs the `DBMa` command and the read of register 9 only. -/
theorem destroy_makes_no_write_witness :
    ((fresh ()).destroy quietLib).2.calls = [Call.Command 0 DBMa 0, Call.Read 0 9 0] := by
  rcases (destroy_makes_no_write quietLib (fresh ()) rfl rfl).2.2.1 with h | h
  · exact absurd h (by decide)
  · exact h

/-! ## The VDM control byte -/

section ControlByte

variable {σ : Type} (lib : AppleHPMLib σ)

theorem pollLoop_calls (no rxst : Nat) (n : Nat) :
    ∀ (i : Nat) (rs : List Nat) (inst : HPMPluginInstance σ),
      ∃ l, (pollLoop lib no rxst n i rs inst).2.calls = inst.calls ++ l := by
  induction n with
  | zero =>
    intro i rs inst
    exact ⟨[], by simp [pollLoop]⟩
  | succ n ih =>
    intro i rs inst
    rcases hr : inst.readRegister lib no 0x4d 0 with ⟨r, inst1⟩
    have h1 : ∃ l, inst1.calls = inst.calls ++ l := by
      have h := readRegister_calls_ite lib inst no 0x4d 0
      rw [hr] at h
      dsimp only at h
      rw [h]
      split
      · exact ⟨_, rfl⟩
      · exact ⟨[], by simp⟩
    obtain ⟨l1, hl1⟩ := h1
    cases r with
    | error e =>
      simp only [pollLoop, hr]
      exact ⟨l1, hl1⟩
    | ok rs1 =>
      simp only [pollLoop, hr]
      split
      · exact ⟨l1, hl1⟩
      · obtain ⟨l2, hl2⟩ := ih (i + 1) rs1 inst1
        exact ⟨l1 ++ l2, by rw [hl2, hl1, List.append_assoc]⟩

/-- After a successful baseline read, the next two transport calls of
`DoVDM` are the `Write` of the frame to register 9 and the `VDMs` command;
the frame is the control byte for `vdm.size()` followed by the encoded
words. -/
theorem DoVDM_frame_logged (ops : SsOps) (inst : HPMPluginInstance σ) (no : Nat)
    (vdm : List Nat) (rs : List Nat) (inst1 : HPMPluginInstance σ)
    (hbase : inst.readRegister lib no 0x4d 0 = (.ok rs, inst1)) :
    ∃ l, (DoVDM ops lib inst no vdm).2.calls =
      inst1.calls ++ Call.Write no 9 (controlByte vdm.length :: (vdm.map ops.put32).flatten) 0 ::
        Call.Command no VDMs 0 :: l := by
  have hd1 : inst1.device = true := by
    have h := readRegister_device lib inst no 0x4d 0
    rw [hbase, readRegister_ok_device lib inst _ _ _ _ _ hbase] at h
    exact h
  have hw : (inst1.writeArgs lib no (vdmFrame ops vdm)).calls =
      inst1.calls ++ [Call.Write no 9 (controlByte vdm.length :: (vdm.map ops.put32).flatten) 0] := by
    simp [HPMPluginInstance.writeArgs, vdmFrame]
  rcases hc : inst1.command lib no VDMs (vdmFrame ops vdm) with ⟨r2, inst2⟩
  have h2 : ∃ l, inst2.calls = inst1.calls ++
      Call.Write no 9 (controlByte vdm.length :: (vdm.map ops.put32).flatten) 0 ::
        Call.Command no VDMs 0 :: l := by
    have h := command_calls lib inst1 no VDMs (vdmFrame ops vdm) hd1
    rw [hc, hw] at h
    dsimp only at h
    exact ⟨if (lib.Command (inst1.writeArgs lib no (vdmFrame ops vdm)).st no VDMs 0).1 = 0
      then [Call.Read no 9 0] else [], by rw [h]; simp⟩
  obtain ⟨l2, hl2⟩ := h2
  cases r2 with
  | error e =>
    simp only [DoVDM, hbase, hc]
    exact ⟨l2, hl2⟩
  | ok v =>
    by_cases hv : v = 0
    · subst hv
      rcases hp : pollLoop lib no (rs.getD 0 0) 16 0 rs inst2 with ⟨r3, inst3⟩
      have h3 : ∃ l, inst3.calls = inst1.calls ++
          Call.Write no 9 (controlByte vdm.length :: (vdm.map ops.put32).flatten) 0 ::
            Call.Command no VDMs 0 :: l := by
        obtain ⟨l3, hl3⟩ := pollLoop_calls lib no (rs.getD 0 0) 16 0 rs inst2
        rw [hp] at hl3
        dsimp only at hl3
        exact ⟨l2 ++ l3, by rw [hl3, hl2]; simp⟩
      simp only [DoVDM, hbase, hc, hp, ne_eq, not_true_eq_false, if_false]
      cases r3 with
      | error e => exact h3
      | ok q =>
        obtain ⟨i, rs1⟩ := q
        dsimp only
        split
        · exact h3
        · split
          · exact h3
          · split <;> exact h3
    · simp only [DoVDM, hbase, hc, hv, ne_eq, not_false_eq_true, if_true]
      exact ⟨l2, hl2⟩

theorem controlByte_lowNibble (M : Nat) : controlByte M &&& 0xf = M % 16 := by
  have h1 : ∀ x : Nat, x &&& 0xf = x % 16 := fun x => Nat.and_pow_two_sub_one_eq_mod x 4
  have h48 : (3 <<< 4 : Nat) = 48 := by decide
  have h0 : (48 : Nat) &&& 0xf = 0 := by decide
  unfold controlByte
  rw [h1, Nat.mod_mod_of_dvd _ (by decide : 16 ∣ 256), ← h1, h48, Nat.and_distrib_right,
    h0, Nat.zero_or, h1]

/-- C9. Let `vdm` be a frame of `N` words, `1 ≤ N ≤ 15`, and let the
baseline read of `DoVDM` succeed. Then the bytes `DoVDM` hands to `Write` on
register 9, right before the `VDMs` command, start with the control byte
`0x30 + N` followed by the encoded words; the low nibble of that byte is `N`
and its high nibble is 3. For a frame of 16 or more words the first byte
written has low nibble `N mod 16`, which is not `N`: the bound 15 is tight. -/
theorem DoVDM_controlByte (ops : SsOps) (inst : HPMPluginInstance σ) (no : Nat)
    (vdm : List Nat) (h1 : 1 ≤ vdm.length) (h15 : vdm.length ≤ 15)
    (rs : List Nat) (inst1 : HPMPluginInstance σ)
    (hbase : inst.readRegister lib no 0x4d 0 = (.ok rs, inst1)) :
    (∃ l, (DoVDM ops lib inst no vdm).2.calls =
      inst1.calls ++ Call.Write no 9 ((0x30 + vdm.length) :: (vdm.map ops.put32).flatten) 0 ::
        Call.Command no VDMs 0 :: l) ∧
      (vdmFrame ops vdm).head? = some (0x30 + vdm.length) ∧
      controlByte vdm.length = 0x30 + vdm.length ∧
      (0x30 + vdm.length) &&& 0xf = vdm.length ∧
      (0x30 + vdm.length) >>> 4 = 3 ∧
      (∀ big : List Nat, 16 ≤ big.length →
        ∃ b tail l, (DoVDM ops lib inst no big).2.calls =
            inst1.calls ++ Call.Write no 9 (b :: tail) 0 :: Call.Command no VDMs 0 :: l ∧
          b < 256 ∧ b &&& 0xf = big.length % 16 ∧ b &&& 0xf ≠ big.length) := by
  have hcb : controlByte vdm.length = 0x30 + vdm.length := by
    generalize vdm.length = N at h1 h15
    interval_cases N <;> decide
  have hlow : (0x30 + vdm.length) &&& 0xf = vdm.length := by
    generalize vdm.length = N at h1 h15
    interval_cases N <;> decide
  have hhigh : (0x30 + vdm.length) >>> 4 = 3 := by
    generalize vdm.length = N at h1 h15
    interval_cases N <;> decide
  refine ⟨?_, ?_, hcb, hlow, hhigh, ?_⟩
  · obtain ⟨l, hl⟩ := DoVDM_frame_logged lib ops inst no vdm rs inst1 hbase
    rw [hcb] at hl
    exact ⟨l, hl⟩
  · simp [vdmFrame, hcb]
  · intro big hbig
    obtain ⟨l, hl⟩ := DoVDM_frame_logged lib ops inst no big rs inst1 hbase
    refine ⟨controlByte big.length, (big.map ops.put32).flatten, l, hl, ?_,
      controlByte_lowNibble big.length, ?_⟩
    · exact Nat.mod_lt _ (by decide)
    · rw [controlByte_lowNibble]
      have : big.length % 16 < 16 := Nat.mod_lt _ (by decide)
      omega

/-- Witness: the three-word update request on a quiet transport is written
to register 9 with control byte `0x33`. -/
theorem DoVDM_controlByte_witness :
    ∃ l, (DoVDM bigEndian quietLib (fresh ()) 0 dfuRequest).2.calls =
      [Call.Read 0 0x4d 0] ++
        Call.Write 0 9 (0x33 :: (dfuRequest.map bigEndian.put32).flatten) 0 ::
          Call.Command 0 VDMs 0 :: l :=
  (DoVDM_controlByte quietLib bigEndian (fresh ()) 0 dfuRequest (by decide) (by decide)
    _ _ rfl).1

end ControlByte

end Dfumac
